import Mathlib

/-!
Verification of the conversation/session persistence and model-lifecycle
orchestration core of an on-device AI chat application.

The development shallowly embeds the TypeScript hooks of the repository:
`useMessages` (message persistence and the chronological/newest-first
reversal convention), `useConversations` (conversation CRUD and legacy-data
migration), the monolithic chat hook (`parseSizeToBytes`, `handleSend`,
`checkModelExists`, `setupModel`) and the orchestrator `useAiChat`
(`removeModel` cascade).  The opaque synchronous key/value store is modelled
as typed key families; JavaScript numbers arising in `parseSizeToBytes` are
modelled as rationals, with `none` standing for NaN.
-/

namespace AiAgent

/-- A chat message, mirroring the `Message` record of the data model
(`id`, `text`, `isUser`, `timestamp`, `includeInContext`, `remainTokens`).
Timestamps are modelled as epoch milliseconds. -/
structure Message where
  id : String
  text : String
  isUser : Bool
  timestamp : Nat
  includeInContext : Bool
  remainTokens : Nat
  deriving Repr, DecidableEq

/-- Conversation metadata, mirroring `ConversationMeta`.  The ISO-8601
`createdAt`/`updatedAt` strings are modelled by their epoch-millisecond
values (ISO-8601 order coincides with numeric order, and the source only
ever compares them through `new Date(x).getTime()`). -/
structure ConversationMeta where
  id : String
  modelId : String
  title : Option String
  summary : Option String := none
  createdAt : Nat
  updatedAt : Nat
  lastMessagePreview : Option String
  deriving Repr, DecidableEq

/-- Modelled from the spec: the key-derivation module (`models.ts`,
imported as `getConversationListKey` / `getMessagesKey` /
`getLastConversationKey`) is not among the provided sources.  Section 4.2
of the spec guarantees that the three derived key families and the bare
legacy `modelId` key are pairwise distinct and collision-free, so the
opaque key/value store is modelled as four independent typed partial maps
plus the selected-model record used by the lifecycle hook. -/
structure Storage where
  legacy : String → Option (List Message)
  convLists : String → Option (List ConversationMeta)
  messages : String → Option (List Message)
  lastConv : String → Option String
  selectedModel : Option String

/-- Pointwise update of one key family. -/
def upd {α : Type} (f : String → Option α) (k : String) (v : Option α) :
    String → Option α :=
  fun k' => if k' = k then v else f k'

def Storage.setMessages (σ : Storage) (cid : String) (ms : List Message) : Storage :=
  { σ with messages := upd σ.messages cid (some ms) }

def Storage.removeMessages (σ : Storage) (cid : String) : Storage :=
  { σ with messages := upd σ.messages cid none }

def Storage.setConvList (σ : Storage) (mid : String) (l : List ConversationMeta) : Storage :=
  { σ with convLists := upd σ.convLists mid (some l) }

def Storage.removeConvList (σ : Storage) (mid : String) : Storage :=
  { σ with convLists := upd σ.convLists mid none }

def Storage.setLastConv (σ : Storage) (mid cid : String) : Storage :=
  { σ with lastConv := upd σ.lastConv mid (some cid) }

def Storage.removeLastConv (σ : Storage) (mid : String) : Storage :=
  { σ with lastConv := upd σ.lastConv mid none }

def Storage.removeLegacy (σ : Storage) (mid : String) : Storage :=
  { σ with legacy := upd σ.legacy mid none }

@[simp] theorem upd_same {α : Type} (f : String → Option α) (k : String) (v : Option α) :
    upd f k v k = v := by
  simp [upd]

@[simp] theorem upd_other {α : Type} (f : String → Option α) (k k' : String)
    (v : Option α) (h : k' ≠ k) : upd f k v k' = f k' := by
  simp [upd, h]

/-! ## `useMessages` (message buffer persistence)

The live in-memory list is newest-first; storage is chronological
(oldest-first).  `saveMessages` and the load-on-conversation-change effect
are the two reversal boundaries. -/

/-- The normalisation applied at both persistence boundaries:
`(m) => (...m, includeInContext: m?.includeInContext !== false)`. -/
def normalizeMessage (m : Message) : Message :=
  { m with includeInContext := m.includeInContext != false }

/-- `saveMessages` from `useMessages`: a guarded write.  With no active
conversation id or an empty live buffer it returns without touching
storage; otherwise it persists the normalised buffer reversed
(newest-first → chronological). -/
def saveMessages (conversationId : Option String) (buf : List Message)
    (σ : Storage) : Storage :=
  match conversationId with
  | none => σ
  | some cid =>
    if buf.isEmpty then σ
    else σ.setMessages cid ((buf.map normalizeMessage).reverse)

/-- The load-on-conversation-change effect of `useMessages`: reads the
persisted chronological record (absent record reads as empty), normalises
each entry and reverses it into the newest-first live state. -/
def loadMessagesState (conversationId : Option String) (σ : Storage) :
    List Message :=
  match conversationId with
  | none => []
  | some cid =>
    let listMsg := (σ.messages cid).getD []
    if listMsg.isEmpty then []
    else (listMsg.map normalizeMessage).reverse

/-- Derived advisory token count of `useMessages`:
`messages.filter(includeInContext).map(text).join("").length`. -/
def totalToken (messages : List Message) : Nat :=
  (String.join ((messages.filter (fun m => m.includeInContext)).map
    (fun m => m.text))).length

theorem normalizeMessage_id (m : Message) : normalizeMessage m = m := by
  cases m with
  | mk id text isUser ts inc rt =>
    cases inc <;> rfl

theorem map_normalizeMessage_id (l : List Message) :
    l.map normalizeMessage = l := by
  induction l with
  | nil => rfl
  | cons a t ih => simp [normalizeMessage_id, ih]

/-! ## `useConversations` (conversation CRUD and legacy migration) -/

/-- In-memory state of the `useConversations` hook: the conversation list
(`conversationsRef`/`setConversations`) and the active conversation id. -/
structure ConvHookState where
  conversations : List ConversationMeta
  activeConversationId : Option String
  deriving Repr, DecidableEq

/-- `migrateLegacyData`: moves a pre-multi-conversation message record
(stored under the bare `modelId` key) into the new layout.  `newConvId` and
`now` stand for the generated conversation id and the current time;
`titleResult` is the outcome of the external `promptAI` title call
(`Except.error` = the call rejected).  Returns the boolean result together
with the updated store. -/
def migrationTitle (titleResult : Except Unit String) : String :=
  match titleResult with
  | .error _ => "Chat 1"
  | .ok summaryResult =>
    if summaryResult = "" then "Chat 1" else summaryResult.take 50

def migrationPreview (legacyMessages : List Message) : Option String :=
  match legacyMessages.getLast? with
  | none => none
  | some lastMessage =>
    if lastMessage.text = "" then none else some (lastMessage.text.take 100)

def migrateLegacyData (modelId newConvId : String) (now : Nat)
    (titleResult : Except Unit String) (σ : Storage) : Bool × Storage :=
  match σ.legacy modelId with
  | none => (false, σ)
  | some legacyMessages =>
    if legacyMessages.isEmpty then (false, σ)
    else if ((σ.convLists modelId).getD []).isEmpty = false then (false, σ)
    else
      let meta : ConversationMeta :=
        { id := newConvId, modelId := modelId,
          title := some (migrationTitle titleResult),
          createdAt := now, updatedAt := now,
          lastMessagePreview := migrationPreview legacyMessages }
      let σ1 := ((σ.setMessages newConvId legacyMessages).setConvList modelId
        [meta]).setLastConv modelId newConvId
      (true, σ1.removeLegacy modelId)

/-- The stable descending sort by `updatedAt` used when re-resolving the
active conversation: `[...list].sort((a, b) => time(b) - time(a))`. -/
def sortByUpdatedDesc (l : List ConversationMeta) : List ConversationMeta :=
  l.mergeSort (fun a b => decide (b.updatedAt ≤ a.updatedAt))

/-- `deleteConversation`: removes the message record and the list entry;
when the deleted conversation was active, promotes the most-recently-updated
survivor (or clears the pointer when none remain). -/
def deleteConversation (modelId cid : String) (st : ConvHookState)
    (σ : Storage) : ConvHookState × Storage :=
  let σ1 := σ.removeMessages cid
  let updatedList := st.conversations.filter (fun c => c.id != cid)
  let σ2 := σ1.setConvList modelId updatedList
  if st.activeConversationId = some cid then
    match (sortByUpdatedDesc updatedList).head? with
    | some top => (⟨updatedList, some top.id⟩, σ2.setLastConv modelId top.id)
    | none => (⟨updatedList, none⟩, σ2.removeLastConv modelId)
  else
    (⟨updatedList, st.activeConversationId⟩, σ2)

/-- `deleteAllConversations`: removes every message record of the model's
conversations plus the list and last-active records, and empties the
in-memory state. -/
def deleteAllConversations (modelId : String) (st : ConvHookState)
    (σ : Storage) : ConvHookState × Storage :=
  let σ1 := st.conversations.foldl (fun acc c => acc.removeMessages c.id) σ
  let σ2 := (σ1.removeConvList modelId).removeLastConv modelId
  (⟨[], none⟩, σ2)

/-! ## Model lifecycle (`checkModelExists`, `setupModel`, removal) -/

/-- Lifecycle states of the selected model. -/
inductive ModelStatus where
  | not_setup
  | downloading
  | preparing
  | ready
  deriving Repr, DecidableEq

/-- In-memory lifecycle state: the reentrancy flag
(`isSetupInProgressRef`), the status/progress/selected-id state values and
whether a prepared model instance is held (`modelRef`). -/
structure LifecycleState where
  isSetupInProgress : Bool
  modelStatus : ModelStatus
  downloadProgress : Nat
  selectedModelId : Option String
  modelLoaded : Bool
  deriving Repr, DecidableEq

/-- JavaScript string truthiness: `null`, `undefined` and `""` are falsy. -/
def strTruthy : Option String → Option String
  | some s => if s = "" then none else some s
  | none => none

/-- JavaScript `a || b` on optional strings. -/
def jsOrStr (a b : Option String) : Option String :=
  match strTruthy a with
  | some s => some s
  | none => strTruthy b

/-- `checkModelExists`: probes on-device presence and, when present,
prepares the model.  `isDownloadedResult` and `prepareResult` are the
outcomes of the two awaited capability calls (`Except.error` = rejection);
the `try`/`catch` of the source turns every rejection into a `false`
return, so the embedding is a total function. -/
def checkModelExists (modelIdArg : Option String)
    (isDownloadedResult : Except Unit Bool) (prepareResult : Except Unit Unit)
    (s : LifecycleState) (σ : Storage) : Bool × LifecycleState × Storage :=
  match jsOrStr modelIdArg s.selectedModelId with
  | none => (false, s, σ)
  | some modelToCheck =>
    match isDownloadedResult with
    | .error _ => (false, s, σ)
    | .ok false => (false, s, σ)
    | .ok true =>
      let s1 : LifecycleState := { s with modelStatus := .preparing }
      match prepareResult with
      | .error _ => (false, s1, σ)
      | .ok _ =>
        (true,
         { s1 with modelLoaded := true, selectedModelId := some modelToCheck,
                   modelStatus := .ready },
         { σ with selectedModel := some modelToCheck })

/-- Result of the synchronous prefix of `setupModel` (everything before its
first suspension point): the call is dropped by the reentrancy guard,
dropped by the same-model-already-ready check, or proceeds with the
reentrancy flag set. -/
inductive SetupEntry where
  | ignoredInProgress
  | noopSameModel
  | proceed (s : LifecycleState)
  deriving Repr

/-- Synchronous prefix of `setupModel`: the reentrancy guard, the
same-model no-op check, and setting `isSetupInProgressRef`. -/
def setupModelEntry (modelId : String) (s : LifecycleState) : SetupEntry :=
  if s.isSetupInProgress then .ignoredInProgress
  else if s.selectedModelId = some modelId ∧ s.modelStatus = .ready then
    .noopSameModel
  else .proceed { s with isSetupInProgress := true }

/-- The `modelId !== selectedModelId && selectedModelId` swap condition. -/
def needsSwap (modelId : String) (s : LifecycleState) : Bool :=
  match s.selectedModelId with
  | some old => old != modelId && old != ""
  | none => false

/-- Body of `setupModel` after the flag is set.  `mounted` is the liveness
flag for the whole run, `dlOk`/`prepOk` the outcomes of the awaited
download and prepare capability calls.  Returns the final state, the store,
and the number of download/prepare sequences started (the `finally` block
always clears the reentrancy flag). -/
def setupModelBody (modelId : String) (mounted dlOk prepOk : Bool)
    (s : LifecycleState) (σ : Storage) : LifecycleState × Storage × Nat :=
  let s1 :=
    if needsSwap modelId s then
      let sU : LifecycleState := { s with modelLoaded := false }
      if mounted then { sU with modelStatus := .not_setup, downloadProgress := 0 }
      else sU
    else s
  if !mounted then ({ s1 with isSetupInProgress := false }, σ, 0)
  else
    let s2 : LifecycleState :=
      { s1 with modelStatus := .downloading, downloadProgress := 0 }
    if !dlOk then
      ({ s2 with modelStatus := .not_setup, downloadProgress := 0,
                 isSetupInProgress := false }, σ, 1)
    else
      let s3 : LifecycleState :=
        { s2 with downloadProgress := 100, modelStatus := .preparing }
      if !prepOk then
        ({ s3 with modelStatus := .not_setup, downloadProgress := 0,
                   isSetupInProgress := false }, σ, 1)
      else
        ({ s3 with modelLoaded := true, selectedModelId := some modelId,
                   modelStatus := .ready, isSetupInProgress := false },
         { σ with selectedModel := some modelId }, 1)

/-- A full `setupModel` call: the synchronous prefix followed (when it
proceeds) by the body. -/
def setupModel (modelId : String) (mounted dlOk prepOk : Bool)
    (s : LifecycleState) (σ : Storage) : LifecycleState × Storage × Nat :=
  match setupModelEntry modelId s with
  | .ignoredInProgress => (s, σ, 0)
  | .noopSameModel => (s, σ, 0)
  | .proceed s' => setupModelBody modelId mounted dlOk prepOk s' σ

/-- The fixed user-visible error message of the streaming hook. -/
def ERROR_MESSAGE : String := "Sorry, an error occurred. Please try again."

/-- State touched by the `handleSend` failure path: the live transcript,
the streaming flag, and whether the abort-controller slot is occupied. -/
structure StreamState where
  messages : List Message
  isLoading : Bool
  streamSlotBusy : Bool
  deriving Repr, DecidableEq

/-- The `catch`/`finally` failure path of `handleSend`: when the session is
live and the stream was not cancelled, the placeholder (identified by
`aiMessageId`) is overwritten with `ERROR_MESSAGE` and the streaming flag
cleared; a cancelled or torn-down stream mutates nothing.  The `finally`
block always releases the abort-controller slot. -/
def handleSendOnError (aiMessageId : String) (mounted aborted : Bool)
    (s : StreamState) : StreamState :=
  let s1 :=
    if !mounted || aborted then s
    else
      { s with
        messages := s.messages.map (fun m =>
          if m.id == aiMessageId then { m with text := ERROR_MESSAGE } else m),
        isLoading := false }
  { s1 with streamSlotBusy := false }

/-- Modelled from the spec: `useModelSetup.ts` (the extracted
`ModelLifecycle` hook whose `removeModel` the orchestrator awaits) is not
among the provided sources.  Spec section 4.4 `remove()`: unloads the
currently loaded model best-effort, invokes the remove capability for the
selected model, transitions to `not_setup`, clears progress and the
persisted selection.  The returned list records the model ids passed to
the remove capability. -/
def lifecycleRemove (s : LifecycleState) (σ : Storage) :
    LifecycleState × Storage × List String :=
  match s.selectedModelId with
  | none => ({ s with modelLoaded := false }, σ, [])
  | some mid =>
    ({ s with modelLoaded := false, modelStatus := .not_setup,
              downloadProgress := 0, selectedModelId := none },
     { σ with selectedModel := none }, [mid])

/-- `removeModel` of the orchestrator `useAiChat`: cascade-deletes the
model's conversations, clears the in-memory message list, then removes the
model through the lifecycle hook.  Returns the conversation state, the live
message list, the lifecycle state, the store, and the ids passed to the
remove capability. -/
def removeModelCascade (modelId : String) (st : ConvHookState)
    (life : LifecycleState) (σ : Storage) :
    ConvHookState × List Message × LifecycleState × Storage × List String :=
  let res := deleteAllConversations modelId st σ
  let res2 := lifecycleRemove life res.2
  (res.1, ([] : List Message), res2.1, res2.2.1, res2.2.2)

/-! ## `parseSizeToBytes`

JavaScript numbers are modelled as rationals; `none` stands for NaN.  The
only inputs of interest carry at most two decimal digits, where binary
double rounding is orders of magnitude below the tolerances at stake. -/

/-- Value of a digit sequence, as `parseFloat` accumulates it. -/
def digitsToNat (ds : List Char) : Nat :=
  ds.foldl (fun n c => 10 * n + (c.toNat - 48)) 0

/-- `parseFloat` restricted to strings over digits and dots (all that the
size regex can capture): longest prefix `digits [. digits]`, NaN (`none`)
when that prefix holds no digit. -/
def parseFloatNum (cs : List Char) : Option ℚ :=
  let intPart := cs.takeWhile Char.isDigit
  let rest := cs.dropWhile Char.isDigit
  let fracPart :=
    match rest with
    | '.' :: t => t.takeWhile Char.isDigit
    | _ => []
  if intPart.isEmpty && fracPart.isEmpty then none
  else
    some ((digitsToNat intPart : ℚ) +
      (digitsToNat fracPart : ℚ) / (10 : ℚ) ^ fracPart.length)

/-- Character class of the regex group `[\d.]`. -/
def isNumChar (c : Char) : Bool := c.isDigit || c == '.'

/-- JavaScript `String.prototype.trim`, over the character list. -/
def trimChars (cs : List Char) : List Char :=
  ((cs.dropWhile Char.isWhitespace).reverse.dropWhile Char.isWhitespace).reverse

/-- `parseSizeToBytes`: trims and upper-cases the input, matches
`^([\d.]+)\s*(KB|MB|GB)?$` (a failed match yields 0), parses the numeric
group and scales by the unit, MB being the default.  A numeric group
without digits (e.g. `"."`) makes `parseFloat` return NaN, which
propagates. -/
def parseSizeToBytes (sizeStr : String) : Option ℚ :=
  let cs := (trimChars sizeStr.toList).map Char.toUpper
  let numPart := cs.takeWhile isNumChar
  let unitPart := (cs.dropWhile isNumChar).dropWhile Char.isWhitespace
  if numPart.isEmpty then some 0
  else
    let unit := String.mk unitPart
    if unit = "" || unit = "KB" || unit = "MB" || unit = "GB" then
      (parseFloatNum numPart).map (fun v =>
        if unit = "GB" then v * 1073741824
        else if unit = "MB" then v * 1048576
        else if unit = "KB" then v * 1024
        else v * 1048576)
    else some 0

/-! ## Sample data used by witnesses -/

/-- The store with no record at all. -/
def emptyStorage : Storage :=
  ⟨fun _ => none, fun _ => none, fun _ => none, fun _ => none, none⟩

def msgA : Message := ⟨"m1", "hello", true, 0, true, 0⟩

def msgB : Message := ⟨"m2", "world!", false, 1, false, 0⟩

/-- A store holding one persisted message record under conversation id
`"c"`. -/
def storageA : Storage :=
  { emptyStorage with messages := fun k => if k = "c" then some [msgA] else none }

/-! ## String helper lemmas -/

theorem foldl_append_eq (l : List String) (a : String) :
    l.foldl (fun r s => r ++ s) a = a ++ String.join l := by
  induction l generalizing a with
  | nil => simp [String.join]
  | cons x t ih =>
    show List.foldl (fun r s => r ++ s) (a ++ x) t = a ++ String.join (x :: t)
    rw [ih (a ++ x)]
    show a ++ x ++ String.join t = a ++ List.foldl (fun r s => r ++ s) ("" ++ x) t
    rw [ih ("" ++ x)]
    simp [String.append_assoc]

theorem join_cons (x : String) (t : List String) :
    String.join (x :: t) = x ++ String.join t := by
  show List.foldl (fun r s => r ++ s) ("" ++ x) t = x ++ String.join t
  rw [foldl_append_eq]
  simp

/-! ## C9 — `totalToken` is the character count of context-included
messages -/

/-- **C9**: for every in-memory message list, the derived `totalToken`
value equals the total character count of exactly those messages whose
`includeInContext` flag is true. -/
theorem totalToken_is_context_char_count (messages : List Message) :
    totalToken messages =
      (messages.map (fun m => if m.includeInContext then m.text.length else 0)).sum := by
  induction messages with
  | nil => rfl
  | cons m t ih =>
    unfold totalToken at ih ⊢
    by_cases h : m.includeInContext
    · simp [List.filter_cons, h, join_cons, String.length_append, ih]
    · simp [List.filter_cons, h, ih]

/-! ## C10 — `saveMessages` is a guarded no-op at the boundary -/

/-- **C10**: `saveMessages` with no active conversation id, or with an
empty live buffer, leaves storage entirely unchanged; in particular an
empty buffer never overwrites a previously persisted record. -/
theorem saveMessages_guarded_noop (cid : String) (buf : List Message)
    (σ : Storage) :
    saveMessages none buf σ = σ ∧
    saveMessages (some cid) [] σ = σ ∧
    (saveMessages (some cid) [] σ).messages cid = σ.messages cid :=
  ⟨rfl, rfl, rfl⟩

/-! ## C2 — persistence round trip and the reversal convention -/

/-- **C2**: saving a non-empty newest-first buffer persists its exact
reverse (chronological order, identical content); loading it back restores
the buffer; and in general the live state loaded from a non-empty persisted
record is that record's exact reverse. -/
theorem messages_roundtrip (cid : String) (buf stored : List Message)
    (σ : Storage) (hbuf : buf ≠ []) :
    (saveMessages (some cid) buf σ).messages cid = some buf.reverse ∧
    loadMessagesState (some cid) (saveMessages (some cid) buf σ) = buf ∧
    (σ.messages cid = some stored → stored ≠ [] →
      loadMessagesState (some cid) σ = stored.reverse) := by
  have hb : buf.isEmpty = false := by
    cases buf with
    | nil => exact absurd rfl hbuf
    | cons a t => rfl
  refine ⟨?_, ?_, ?_⟩
  · simp [saveMessages, hb, Storage.setMessages, map_normalizeMessage_id]
  · simp [saveMessages, hb, Storage.setMessages, loadMessagesState,
      map_normalizeMessage_id, hbuf]
  · intro hst hne
    simp [loadMessagesState, hst, map_normalizeMessage_id, hne]

/-- Witness for C2 at a concrete input. -/
theorem messages_roundtrip_witness :
    (saveMessages (some "c") [msgB] storageA).messages "c" = some [msgB] ∧
    loadMessagesState (some "c") (saveMessages (some "c") [msgB] storageA) = [msgB] ∧
    loadMessagesState (some "c") storageA = [msgA] := by
  have h := messages_roundtrip "c" [msgB] [msgA] storageA (by simp)
  refine ⟨by simpa using h.1, h.2.1, ?_⟩
  simpa using h.2.2 rfl (by simp)

/-! ## C1 — `migrateLegacyData` -/

/-- A store holding a legacy record for model `"m"` together with a
conversation list record that exists but holds the empty list (the state
`deleteConversation` leaves behind after the last conversation of a model
is deleted). -/
def storageLegacyEmptyList : Storage :=
  { emptyStorage with
      legacy := fun k => if k = "m" then some [msgA] else none,
      convLists := fun k => if k = "m" then some ([] : List ConversationMeta) else none }

/-- A store holding only a two-message legacy record for model `"m"`. -/
def storageLegacyOnly : Storage :=
  { emptyStorage with
      legacy := fun k => if k = "m" then some [msgA, msgB] else none }

/-- **C1 counterexample**: the claim says `migrateLegacyData` returns
false immediately when a conversation list record already exists for the
model; but when the existing record holds an empty list the source's
`existingList?.length` guard is falsy and migration proceeds, returning
true. -/
theorem migrateLegacyData_counterexample :
    (storageLegacyEmptyList.convLists "m").isSome = true ∧
    (migrateLegacyData "m" "c1" 5 (Except.error ()) storageLegacyEmptyList).1 = true :=
  ⟨rfl, rfl⟩

/-- **C1 (amended)**: `migrateLegacyData` is idempotent and fails closed:
it returns false immediately when no legacy messages exist under the bare
model-id key or when a *non-empty* conversation list record already exists
for the model; otherwise it writes the legacy message sequence verbatim
under the new conversation's message key, writes a single-entry
conversation list, sets the last-active pointer to the new conversation,
deletes the legacy record, and returns true — so after a call that returns
true, any second call for the same model returns false, the legacy key is
absent, and exactly one conversation holding the full legacy message set
exists. -/
theorem migrateLegacyData_spec (modelId newConvId : String) (now : Nat)
    (tr : Except Unit String) (σ : Storage) :
    (σ.legacy modelId = none →
      migrateLegacyData modelId newConvId now tr σ = (false, σ)) ∧
    (σ.legacy modelId = some [] →
      migrateLegacyData modelId newConvId now tr σ = (false, σ)) ∧
    (∀ l, σ.convLists modelId = some l → l ≠ [] →
      migrateLegacyData modelId newConvId now tr σ = (false, σ)) ∧
    (∀ msgs, σ.legacy modelId = some msgs → msgs ≠ [] →
      (σ.convLists modelId).getD [] = [] →
      (migrateLegacyData modelId newConvId now tr σ).1 = true ∧
      (migrateLegacyData modelId newConvId now tr σ).2.messages newConvId = some msgs ∧
      (∃ meta : ConversationMeta,
        (migrateLegacyData modelId newConvId now tr σ).2.convLists modelId = some [meta] ∧
        meta.id = newConvId ∧ meta.modelId = modelId) ∧
      (migrateLegacyData modelId newConvId now tr σ).2.lastConv modelId = some newConvId ∧
      (migrateLegacyData modelId newConvId now tr σ).2.legacy modelId = none ∧
      (∀ (cid2 : String) (now2 : Nat) (tr2 : Except Unit String),
        (migrateLegacyData modelId cid2 now2 tr2
          (migrateLegacyData modelId newConvId now tr σ).2).1 = false)) := by
  refine ⟨?_, ?_, ?_, ?_⟩
  · intro h
    simp [migrateLegacyData, h]
  · intro h
    simp [migrateLegacyData, h]
  · intro l hl hlne
    unfold migrateLegacyData
    cases hleg : σ.legacy modelId with
    | none => rfl
    | some msgs =>
      by_cases hm : msgs.isEmpty <;>
        simp [hm, hl, List.isEmpty_eq_false.mpr hlne]
  · intro msgs hleg hne hcl
    have hm : msgs.isEmpty = false := List.isEmpty_eq_false.mpr hne
    refine ⟨?_, ?_,
      ⟨⟨newConvId, modelId, some (migrationTitle tr), none, now, now,
        migrationPreview msgs⟩, ?_, rfl, rfl⟩, ?_, ?_, ?_⟩ <;>
      simp [migrateLegacyData, hleg, hm, hcl, Storage.setMessages,
        Storage.setConvList, Storage.setLastConv, Storage.removeLegacy, upd]

/-- Witness for C1 (amended) at a concrete input: the fail-closed cases,
and a full migration of a two-message legacy record. -/
theorem migrateLegacyData_spec_witness :
    migrateLegacyData "m" "c1" 5 (Except.ok "Title") emptyStorage =
      (false, emptyStorage) ∧
    (migrateLegacyData "m" "c1" 5 (Except.ok "Title") storageLegacyOnly).1 = true ∧
    (migrateLegacyData "m" "c1" 5 (Except.ok "Title") storageLegacyOnly).2.messages "c1" =
      some [msgA, msgB] ∧
    (migrateLegacyData "m" "c1" 5 (Except.ok "Title") storageLegacyOnly).2.lastConv "m" =
      some "c1" ∧
    (migrateLegacyData "m" "c1" 5 (Except.ok "Title") storageLegacyOnly).2.legacy "m" =
      none ∧
    (migrateLegacyData "m" "c2" 9 (Except.error ())
      (migrateLegacyData "m" "c1" 5 (Except.ok "Title") storageLegacyOnly).2).1 = false := by
  have h0 := migrateLegacyData_spec "m" "c1" 5 (Except.ok "Title") emptyStorage
  have h1 := migrateLegacyData_spec "m" "c1" 5 (Except.ok "Title") storageLegacyOnly
  have h4 := h1.2.2.2 [msgA, msgB] rfl (by simp) rfl
  exact ⟨h0.1 rfl, h4.1, h4.2.1, h4.2.2.2.1, h4.2.2.2.2.1, h4.2.2.2.2.2 "c2" 9 (Except.error ())⟩

/-! ## C3 — `deleteConversation` -/

theorem sortByUpdatedDesc_head (l : List ConversationMeta)
    (top : ConversationMeta) (h : (sortByUpdatedDesc l).head? = some top) :
    top ∈ l ∧ ∀ c ∈ l, c.updatedAt ≤ top.updatedAt := by
  have hperm := List.mergeSort_perm l
    (fun a b : ConversationMeta => decide (b.updatedAt ≤ a.updatedAt))
  have hsorted := @List.sorted_mergeSort ConversationMeta
    (fun a b : ConversationMeta => decide (b.updatedAt ≤ a.updatedAt))
    (fun a b c hab hbc => by
      simp only [decide_eq_true_eq] at *
      exact le_trans hbc hab)
    (fun a b => by
      simp only [Bool.or_eq_true, decide_eq_true_eq]
      exact Nat.le_total b.updatedAt a.updatedAt)
    l
  unfold sortByUpdatedDesc at h
  cases hs : l.mergeSort (fun a b : ConversationMeta =>
      decide (b.updatedAt ≤ a.updatedAt)) with
  | nil => rw [hs] at h; exact absurd h (by simp)
  | cons x rest =>
    rw [hs] at h hperm hsorted
    have hx : x = top := by simpa using h
    subst hx
    rw [List.pairwise_cons] at hsorted
    constructor
    · exact hperm.subset (by simp)
    · intro c hc
      have hc' : c ∈ x :: rest := hperm.symm.subset hc
      rcases List.mem_cons.mp hc' with hceq | hcr
      · exact le_of_eq (by rw [hceq])
      · simpa using hsorted.1 c hcr

/-- **C3**: `deleteConversation` removes the deleted conversation's message
record and list entry; if the deleted conversation was active and survivors
remain, the new active conversation and the persisted last-active pointer
name a most-recently-updated survivor; if none remain, the active pointer
is cleared and the last-active record removed; deleting a non-active
conversation leaves both pointers unchanged. -/
theorem deleteConversation_spec (modelId cid : String) (st : ConvHookState)
    (σ : Storage) (hne : st.conversations ≠ []) :
    (deleteConversation modelId cid st σ).2.messages cid = none ∧
    (deleteConversation modelId cid st σ).1.conversations =
      st.conversations.filter (fun c => c.id != cid) ∧
    (deleteConversation modelId cid st σ).2.convLists modelId =
      some (st.conversations.filter (fun c => c.id != cid)) ∧
    (st.activeConversationId = some cid →
      st.conversations.filter (fun c => c.id != cid) ≠ [] →
      ∃ top : ConversationMeta,
        top ∈ st.conversations.filter (fun c => c.id != cid) ∧
        (∀ c ∈ st.conversations.filter (fun c => c.id != cid),
          c.updatedAt ≤ top.updatedAt) ∧
        (deleteConversation modelId cid st σ).1.activeConversationId = some top.id ∧
        (deleteConversation modelId cid st σ).2.lastConv modelId = some top.id) ∧
    (st.activeConversationId = some cid →
      st.conversations.filter (fun c => c.id != cid) = [] →
      (deleteConversation modelId cid st σ).1.activeConversationId = none ∧
      (deleteConversation modelId cid st σ).2.lastConv modelId = none) ∧
    (st.activeConversationId ≠ some cid →
      (deleteConversation modelId cid st σ).1.activeConversationId =
        st.activeConversationId ∧
      (deleteConversation modelId cid st σ).2.lastConv modelId =
        σ.lastConv modelId) := by
  by_cases hact : st.activeConversationId = some cid
  · cases hhead : (sortByUpdatedDesc
        (st.conversations.filter (fun c => c.id != cid))).head? with
    | none =>
      have hfilt : st.conversations.filter (fun c => c.id != cid) = [] := by
        have hnil := List.head?_eq_none_iff.mp hhead
        have := (List.mergeSort_perm
          (st.conversations.filter (fun c => c.id != cid))
          (fun a b : ConversationMeta => decide (b.updatedAt ≤ a.updatedAt)))
        unfold sortByUpdatedDesc at hnil
        rw [hnil] at this
        exact this.symm.eq_nil
      refine ⟨?_, ?_, ?_, ?_, ?_, ?_⟩ <;>
        simp [deleteConversation, hact, hhead, hfilt, Storage.removeMessages,
          Storage.setConvList, Storage.removeLastConv, upd,
          sortByUpdatedDesc, List.mergeSort_nil]
    | some top =>
      have htop := sortByUpdatedDesc_head _ _ hhead
      have hfilt : st.conversations.filter (fun c => c.id != cid) ≠ [] := by
        intro hcontra
        rw [hcontra] at htop
        exact absurd htop.1 (List.not_mem_nil top)
      refine ⟨?_, ?_, ?_, ?_, ?_, ?_⟩
      · simp [deleteConversation, hact, hhead, Storage.removeMessages,
          Storage.setConvList, Storage.setLastConv, upd]
      · simp [deleteConversation, hact, hhead]
      · simp [deleteConversation, hact, hhead, Storage.removeMessages,
          Storage.setConvList, Storage.setLastConv, upd]
      · intro _ _
        exact ⟨top, htop.1, htop.2, by
          simp [deleteConversation, hact, hhead], by
          simp [deleteConversation, hact, hhead, Storage.removeMessages,
            Storage.setConvList, Storage.setLastConv, upd]⟩
      · intro _ habs
        exact absurd habs hfilt
      · intro habs
        exact absurd hact habs
  · refine ⟨?_, ?_, ?_, ?_, ?_, ?_⟩ <;>
      simp [deleteConversation, hact, Storage.removeMessages,
        Storage.setConvList, upd]

def convC1 : ConversationMeta := ⟨"c1", "m", none, none, 0, 5, none⟩

def convC2 : ConversationMeta := ⟨"c2", "m", none, none, 0, 10, none⟩

def convC3 : ConversationMeta := ⟨"c3", "m", none, none, 0, 20, none⟩

def convSt : ConvHookState := ⟨[convC1, convC2, convC3], some "c1"⟩

/-- Witness for C3 at a concrete input: deleting the active conversation
`"c1"` among three. -/
theorem deleteConversation_spec_witness :
    (deleteConversation "m" "c1" convSt emptyStorage).2.messages "c1" = none ∧
    (deleteConversation "m" "c1" convSt emptyStorage).1.conversations =
      [convC2, convC3] ∧
    (∃ top : ConversationMeta,
      top ∈ List.filter (fun c => c.id != "c1") convSt.conversations ∧
      (∀ c ∈ List.filter (fun c => c.id != "c1") convSt.conversations,
        c.updatedAt ≤ top.updatedAt) ∧
      (deleteConversation "m" "c1" convSt emptyStorage).1.activeConversationId =
        some top.id ∧
      (deleteConversation "m" "c1" convSt emptyStorage).2.lastConv "m" =
        some top.id) := by
  have h := deleteConversation_spec "m" "c1" convSt emptyStorage (by simp [convSt])
  refine ⟨h.1, ?_, h.2.2.2.1 rfl (by decide)⟩
  rw [h.2.1]
  decide

/-! ## C4 — `setupModel` reentrancy -/

/-- **C4**: at most one setup is in flight.  When a call passes the guards
it sets the reentrancy flag before its first suspension point, so a second
call arriving while the first has not completed is ignored entirely — its
state is untouched, no download is issued — and the first (live) call runs
exactly one download/prepare sequence, clearing the flag when it ends. -/
theorem setupModel_reentrancy (m1 m2 : String)
    (dlOk prepOk mounted2 dlOk2 prepOk2 : Bool) (s : LifecycleState)
    (σ σ2 : Storage) (h1 : s.isSetupInProgress = false)
    (h2 : ¬(s.selectedModelId = some m1 ∧ s.modelStatus = ModelStatus.ready)) :
    setupModelEntry m1 s = SetupEntry.proceed { s with isSetupInProgress := true } ∧
    setupModel m2 mounted2 dlOk2 prepOk2 { s with isSetupInProgress := true } σ2 =
      ({ s with isSetupInProgress := true }, σ2, 0) ∧
    (setupModel m1 true dlOk prepOk s σ).2.2 = 1 ∧
    (setupModel m1 true dlOk prepOk s σ).1.isSetupInProgress = false := by
  have hentry : setupModelEntry m1 s =
      SetupEntry.proceed { s with isSetupInProgress := true } := by
    simp [setupModelEntry, h1, h2]
  refine ⟨hentry, ?_, ?_, ?_⟩
  · simp [setupModel, setupModelEntry]
  · simp only [setupModel, hentry]
    unfold setupModelBody
    cases hns : needsSwap m1 { s with isSetupInProgress := true } <;>
      cases dlOk <;> cases prepOk <;> simp
  · simp only [setupModel, hentry]
    unfold setupModelBody
    cases hns : needsSwap m1 { s with isSetupInProgress := true } <;>
      cases dlOk <;> cases prepOk <;> simp

/-- The idle lifecycle state: nothing selected, nothing loaded. -/
def lifeIdle : LifecycleState := ⟨false, .not_setup, 0, none, false⟩

/-- Witness for C4 at a concrete input: two rapid calls from the idle
state run exactly one download sequence. -/
theorem setupModel_reentrancy_witness :
    setupModelEntry "a" lifeIdle =
      SetupEntry.proceed { lifeIdle with isSetupInProgress := true } ∧
    setupModel "b" true true true { lifeIdle with isSetupInProgress := true }
      emptyStorage = ({ lifeIdle with isSetupInProgress := true }, emptyStorage, 0) ∧
    (setupModel "a" true true true lifeIdle emptyStorage).2.2 = 1 := by
  have h := setupModel_reentrancy "a" "b" true true true true true lifeIdle
    emptyStorage emptyStorage rfl (by simp [lifeIdle])
  exact ⟨h.1, h.2.1, h.2.2.1⟩

/-! ## C5 — `checkModelExists` -/

/-- **C5 counterexample**: the claim says any failure leaves the lifecycle
state unchanged; but when the model is reported present and the `prepare`
call rejects, the status set just before the call stays at `preparing`, so
the state differs from the initial one (the call still returns false). -/
theorem checkModelExists_counterexample :
    (checkModelExists (some "m") (Except.ok true) (Except.error ())
      lifeIdle emptyStorage).1 = false ∧
    (checkModelExists (some "m") (Except.ok true) (Except.error ())
      lifeIdle emptyStorage).2.1 ≠ lifeIdle := by
  refine ⟨rfl, ?_⟩
  intro h
  have := congrArg LifecycleState.modelStatus h
  simp [checkModelExists, jsOrStr, strTruthy, lifeIdle] at this

/-- **C5 (amended)**: `checkModelExists` never throws; with no model to
check, a rejected presence probe, or an absent model it returns false with
state and storage unchanged; when the model is present it transitions
through `preparing`, and if `prepare` rejects it returns false with the
status left at `preparing` (the only change); on success it reaches
`ready`, records and persists the model id as selected, and returns
true. -/
theorem checkModelExists_spec (arg : Option String) (dl : Except Unit Bool)
    (prep : Except Unit Unit) (s : LifecycleState) (σ : Storage) :
    (jsOrStr arg s.selectedModelId = none →
      checkModelExists arg dl prep s σ = (false, s, σ)) ∧
    (∀ m, jsOrStr arg s.selectedModelId = some m →
      (dl = Except.error () → checkModelExists arg dl prep s σ = (false, s, σ)) ∧
      (dl = Except.ok false → checkModelExists arg dl prep s σ = (false, s, σ)) ∧
      (dl = Except.ok true → prep = Except.error () →
        checkModelExists arg dl prep s σ =
          (false, { s with modelStatus := ModelStatus.preparing }, σ)) ∧
      (dl = Except.ok true → prep = Except.ok () →
        checkModelExists arg dl prep s σ =
          (true,
           { s with modelStatus := ModelStatus.ready, modelLoaded := true,
                    selectedModelId := some m },
           { σ with selectedModel := some m }))) := by
  constructor
  · intro h
    simp [checkModelExists, h]
  · intro m hm
    refine ⟨?_, ?_, ?_, ?_⟩ <;> intro hdl <;> try intro hprep
    · simp [checkModelExists, hm, hdl]
    · simp [checkModelExists, hm, hdl]
    · simp [checkModelExists, hm, hdl, hprep]
    · simp [checkModelExists, hm, hdl, hprep]

/-- Witness for C5 (amended) at a concrete input: the success path and the
prepare-rejection path from the idle state. -/
theorem checkModelExists_spec_witness :
    checkModelExists (some "m") (Except.ok true) (Except.ok ())
      lifeIdle emptyStorage =
      (true,
       { lifeIdle with modelStatus := ModelStatus.ready, modelLoaded := true,
                       selectedModelId := some "m" },
       { emptyStorage with selectedModel := some "m" }) ∧
    checkModelExists (some "m") (Except.ok true) (Except.error ())
      lifeIdle emptyStorage =
      (false, { lifeIdle with modelStatus := ModelStatus.preparing },
       emptyStorage) := by
  have h1 := checkModelExists_spec (some "m") (Except.ok true) (Except.ok ())
    lifeIdle emptyStorage
  have h2 := checkModelExists_spec (some "m") (Except.ok true) (Except.error ())
    lifeIdle emptyStorage
  exact ⟨(h1.2 "m" rfl).2.2.2 rfl rfl, (h2.2 "m" rfl).2.2.1 rfl rfl⟩

/-! ## C7 — `handleSend` failure recovery -/

/-- **C7**: when a live in-flight generation fails and the stream was not
cancelled, the placeholder assistant message (identified by its id) has its
text replaced by the fixed error message, every other message is untouched,
and the streaming slot is released so a new send is possible; when the
stream was cancelled, no message or loading state beyond what was already
streamed is modified. -/
theorem handleSend_failure_spec (aiMessageId : String) (aborted : Bool)
    (s : StreamState) :
    (aborted = false →
      (handleSendOnError aiMessageId true aborted s).isLoading = false ∧
      (handleSendOnError aiMessageId true aborted s).messages.length =
        s.messages.length ∧
      (∀ (i : Nat) (m : Message), s.messages[i]? = some m →
        (m.id = aiMessageId →
          (handleSendOnError aiMessageId true aborted s).messages[i]? =
            some { m with text := ERROR_MESSAGE }) ∧
        (m.id ≠ aiMessageId →
          (handleSendOnError aiMessageId true aborted s).messages[i]? =
            some m))) ∧
    (aborted = true →
      (handleSendOnError aiMessageId true aborted s).messages = s.messages ∧
      (handleSendOnError aiMessageId true aborted s).isLoading = s.isLoading) ∧
    (handleSendOnError aiMessageId true aborted s).streamSlotBusy = false := by
  refine ⟨?_, ?_, ?_⟩
  · intro hab
    subst hab
    refine ⟨rfl, by simp [handleSendOnError], ?_⟩
    intro i m hm
    constructor
    · intro hid
      simp [handleSendOnError, List.getElem?_map, hm, hid]
    · intro hid
      simp [handleSendOnError, List.getElem?_map, hm, hid]
  · intro hab
    subst hab
    exact ⟨rfl, rfl⟩
  · cases aborted <;> rfl

/-- The empty assistant placeholder used by witnesses. -/
def msgPlaceholder : Message := ⟨"ai1", "", false, 2, true, 0⟩

/-- Witness for C7 at a concrete input: a failed, non-cancelled stream over
a user message and a placeholder. -/
theorem handleSend_failure_spec_witness :
    (handleSendOnError "ai1" true false
      ⟨[msgPlaceholder, msgA], true, true⟩).isLoading = false ∧
    (handleSendOnError "ai1" true false
      ⟨[msgPlaceholder, msgA], true, true⟩).messages[0]? =
      some { msgPlaceholder with text := ERROR_MESSAGE } ∧
    (handleSendOnError "ai1" true false
      ⟨[msgPlaceholder, msgA], true, true⟩).messages[1]? = some msgA ∧
    (handleSendOnError "ai1" true true
      ⟨[msgPlaceholder, msgA], true, true⟩).messages = [msgPlaceholder, msgA] := by
  have h := handleSend_failure_spec "ai1" false ⟨[msgPlaceholder, msgA], true, true⟩
  have h2 := handleSend_failure_spec "ai1" true ⟨[msgPlaceholder, msgA], true, true⟩
  refine ⟨(h.1 rfl).1, ?_, ?_, (h2.2.1 rfl).1⟩
  · exact ((h.1 rfl).2.2 0 msgPlaceholder rfl).1 rfl
  · exact ((h.1 rfl).2.2 1 msgA rfl).2 (by decide)

/-! ## C8 — `removeModel` cascade -/

theorem foldl_removeMessages_messages (l : List ConversationMeta)
    (σ : Storage) (k : String) :
    (l.foldl (fun acc c => acc.removeMessages c.id) σ).messages k =
      if l.any (fun c => c.id == k) then none else σ.messages k := by
  induction l generalizing σ with
  | nil => simp
  | cons c t ih =>
    show (t.foldl (fun acc c => acc.removeMessages c.id)
      (σ.removeMessages c.id)).messages k = _
    rw [ih]
    by_cases hck : c.id = k
    · by_cases ht : t.any (fun c => c.id == k) <;>
        simp [ht, hck, Storage.removeMessages, upd]
    · by_cases ht : t.any (fun c => c.id == k) <;>
        simp [ht, hck, Storage.removeMessages, upd, Ne.symm hck]

theorem foldl_removeMessages_convLists (l : List ConversationMeta)
    (σ : Storage) :
    (l.foldl (fun acc c => acc.removeMessages c.id) σ).convLists =
      σ.convLists := by
  induction l generalizing σ with
  | nil => rfl
  | cons c t ih =>
    show (t.foldl (fun acc c => acc.removeMessages c.id)
      (σ.removeMessages c.id)).convLists = _
    rw [ih]
    rfl

theorem foldl_removeMessages_lastConv (l : List ConversationMeta)
    (σ : Storage) :
    (l.foldl (fun acc c => acc.removeMessages c.id) σ).lastConv =
      σ.lastConv := by
  induction l generalizing σ with
  | nil => rfl
  | cons c t ih =>
    show (t.foldl (fun acc c => acc.removeMessages c.id)
      (σ.removeMessages c.id)).lastConv = _
    rw [ih]
    rfl

/-- **C8**: after `removeModel` runs for the selected model, every message
record of the model's conversations, the conversation list record and the
last-active pointer record are absent from storage, the in-memory message
list is empty, and the model is passed to the lifecycle removal capability
(leaving the lifecycle at `not_setup`). -/
theorem removeModelCascade_spec (modelId : String) (st : ConvHookState)
    (life : LifecycleState) (σ : Storage)
    (hsel : life.selectedModelId = some modelId) :
    (∀ c ∈ st.conversations,
      (removeModelCascade modelId st life σ).2.2.2.1.messages c.id = none) ∧
    (removeModelCascade modelId st life σ).2.2.2.1.convLists modelId = none ∧
    (removeModelCascade modelId st life σ).2.2.2.1.lastConv modelId = none ∧
    (removeModelCascade modelId st life σ).2.1 = [] ∧
    (removeModelCascade modelId st life σ).1.conversations = [] ∧
    (removeModelCascade modelId st life σ).2.2.2.2 = [modelId] ∧
    (removeModelCascade modelId st life σ).2.2.1.modelStatus =
      ModelStatus.not_setup := by
  unfold removeModelCascade deleteAllConversations lifecycleRemove
  rw [hsel]
  refine ⟨?_, ?_, ?_, rfl, rfl, rfl, rfl⟩
  · intro c hc
    show (st.conversations.foldl (fun acc c => acc.removeMessages c.id)
      σ).messages c.id = none
    rw [foldl_removeMessages_messages]
    have hany : st.conversations.any (fun x => x.id == c.id) = true :=
      List.any_eq_true.mpr ⟨c, hc, by simp⟩
    rw [hany]
    rfl
  · show upd ((st.conversations.foldl (fun acc c => acc.removeMessages c.id)
      σ).convLists) modelId none modelId = none
    simp
  · show upd ((st.conversations.foldl (fun acc c => acc.removeMessages c.id)
      σ).lastConv) modelId none modelId = none
    simp

/-- Witness for C8 at a concrete input. -/
theorem removeModelCascade_spec_witness :
    (removeModelCascade "m" convSt
      { lifeIdle with selectedModelId := some "m" } storageA).2.2.2.1.messages
      "c1" = none ∧
    (removeModelCascade "m" convSt
      { lifeIdle with selectedModelId := some "m" } storageA).2.2.2.1.convLists
      "m" = none ∧
    (removeModelCascade "m" convSt
      { lifeIdle with selectedModelId := some "m" } storageA).2.1 = [] ∧
    (removeModelCascade "m" convSt
      { lifeIdle with selectedModelId := some "m" } storageA).2.2.2.2 = ["m"] := by
  have h := removeModelCascade_spec "m" convSt
    { lifeIdle with selectedModelId := some "m" } storageA rfl
  exact ⟨h.1 convC1 (by simp [convSt]), h.2.1, h.2.2.2.1, h.2.2.2.2.2.1⟩

/-! ## C6 — `parseSizeToBytes` -/

/-- **C6 counterexample**: the claim (and the source's own doc comment)
says "2.39GB" yields 2566914048 bytes within ±1024; the function computes
2.39 · 2³⁰ = 2566242959.36, about 671089 bytes away (2566914048 is
2.390625 GB — the pre-rounding size whose display is "2.39 GB"). -/
theorem parseSizeToBytes_counterexample :
    parseSizeToBytes "2.39GB" = some (64156073984 / 25 : ℚ) ∧
    ¬|(64156073984 / 25 : ℚ) - 2566914048| ≤ 1024 := by
  constructor
  · simp +decide [parseSizeToBytes, parseFloatNum, trimChars, isNumChar,
      digitsToNat]
    norm_num
  · rw [abs_le]
    push_neg
    intro h
    norm_num at h

/-- **C6 (amended)**: `parseSizeToBytes` never throws (it is total); an
input with no leading numeric group after trimming yields 0; a numeric
value with no unit is scaled by the MB multiplier 1048576; and the
representative values hold: "1.04 MB" yields 1090519.04 bytes (within 1 of
1090519), "2.39GB" yields exactly 2566242959.36 bytes, and "500" yields
524288000 bytes. -/
theorem parseSizeToBytes_spec (s : String) :
    (((trimChars s.toList).map Char.toUpper).takeWhile isNumChar = [] →
      parseSizeToBytes s = some 0) ∧
    ((trimChars s.toList).map Char.toUpper ≠ [] →
      (∀ c ∈ (trimChars s.toList).map Char.toUpper, isNumChar c) →
      parseSizeToBytes s =
        (parseFloatNum ((trimChars s.toList).map Char.toUpper)).map
          (fun v => v * 1048576)) ∧
    parseSizeToBytes "1.04 MB" = some (27262976 / 25 : ℚ) ∧
    |(27262976 / 25 : ℚ) - 1090519| ≤ 1 ∧
    parseSizeToBytes "2.39GB" = some (64156073984 / 25 : ℚ) ∧
    parseSizeToBytes "500" = some (524288000 : ℚ) := by
  refine ⟨?_, ?_, ?_, ?_, ?_, ?_⟩
  · intro h
    simp only [String.toList] at h
    simp [parseSizeToBytes, String.toList, h]
  · intro hne hall
    simp only [String.toList] at hne hall
    have ht := List.takeWhile_eq_self_iff.mpr hall
    have hd := List.dropWhile_eq_nil_iff.mpr hall
    simp only [parseSizeToBytes, String.toList, ht, hd]
    simp +decide [List.isEmpty_eq_false.mpr hne]
  · simp +decide [parseSizeToBytes, parseFloatNum, trimChars, isNumChar,
      digitsToNat]
    norm_num
  · rw [abs_le]
    norm_num
  · simp +decide [parseSizeToBytes, parseFloatNum, trimChars, isNumChar,
      digitsToNat]
    norm_num
  · simp +decide [parseSizeToBytes, parseFloatNum, trimChars, isNumChar,
      digitsToNat]
    norm_num

/-- Witness for C6 (amended) at concrete inputs: an unparseable string and
a unit-less numeral. -/
theorem parseSizeToBytes_spec_witness :
    parseSizeToBytes "garbage" = some 0 ∧
    parseSizeToBytes "500" =
      (parseFloatNum ((trimChars "500".toList).map Char.toUpper)).map
        (fun v => v * 1048576) ∧
    parseSizeToBytes "500" = some (524288000 : ℚ) := by
  have h := parseSizeToBytes_spec "garbage"
  have h2 := parseSizeToBytes_spec "500"
  exact ⟨h.1 (by decide), h2.2.1 (by decide) (by decide), h2.2.2.2.2.2⟩

end AiAgent
